import Mathlib

/-!
Verification of the image-naming backend implemented in app.py.  The
definitions below are a shallow embedding of the route handlers and helper
functions of that file: text values are lists of characters, the filesystem
directories and the JSON catalog are explicit fields of a state record, and
the external collaborators (the OCR engine, the image codec, the uuid and
clock sources) are parameters of the handler functions.  The theorems at
the end of the file check the specified properties of the handlers.
-/

/-- Text values: Python strings are modelled as lists of characters. -/
abbrev Str := List Char

/-- Model of the character test used by Python str.strip with no
arguments, exact on code points below 0x100 (tab through carriage return,
the separator controls 0x1C to 0x1F, space, next line 0x85 and no-break
space 0xA0); code points at or above 0x100 are approximated as
non-whitespace. -/
def pyIsWhitespace (c : Char) : Bool :=
  decide (9 ≤ c.toNat ∧ c.toNat ≤ 13) || decide (28 ≤ c.toNat ∧ c.toNat ≤ 32) ||
  decide (c.toNat = 133) || decide (c.toNat = 160)

/-- Removal of trailing characters satisfying p (reverse, drop from the
front, reverse back). -/
def dropTrail (p : Char → Bool) (l : Str) : Str :=
  (l.reverse.dropWhile p).reverse

/-- Model of Python str.strip with no arguments: remove leading and
trailing whitespace. -/
def pyStrip (s : Str) : Str :=
  dropTrail pyIsWhitespace (s.dropWhile pyIsWhitespace)

/-- Model of Python str.isalnum on a single character, exact on code
points below 0x100 (ASCII letters and digits, and the Latin-1 Supplement
alphanumerics: feminine and masculine ordinals 0xAA and 0xBA, superscripts
0xB2 0xB3 0xB9, micro sign 0xB5, vulgar fractions 0xBC to 0xBE, and the
Latin-1 letters 0xC0 to 0xFF except the multiplication and division signs
0xD7 and 0xF7); code points at or above 0x100 are approximated as
non-alphanumeric. -/
def pyIsAlnum (c : Char) : Bool :=
  c.isAlphanum ||
  decide (c.toNat = 0xAA) || decide (c.toNat = 0xB2) || decide (c.toNat = 0xB3) ||
  decide (c.toNat = 0xB5) || decide (c.toNat = 0xB9) || decide (c.toNat = 0xBA) ||
  decide (0xBC ≤ c.toNat ∧ c.toNat ≤ 0xBE) ||
  decide (0xC0 ≤ c.toNat ∧ c.toNat ≤ 0xD6) ||
  decide (0xD8 ≤ c.toNat ∧ c.toNat ≤ 0xF6) ||
  decide (0xF8 ≤ c.toNat ∧ c.toNat ≤ 0xFF)

/-- Condition under which a character is kept by the transliteration of
app.py (line 203 and the like): alphanumeric, space, hyphen or
underscore. -/
def pyNameChar (c : Char) : Bool :=
  pyIsAlnum c || decide (c = ' ') || decide (c = '-') || decide (c = '_')

/-- Transliteration of one character: kept if alphanumeric, space, hyphen
or underscore, otherwise replaced by an underscore. -/
def translitChar (c : Char) : Char :=
  if pyNameChar c then c else '_'

/-- Safe name of a text (app.py lines 203 to 205, 301 to 303, 345 to
347): transliterate every character, and substitute the literal unnamed
when the result is empty. -/
def safeName (text : Str) : Str :=
  if text.map translitChar = [] then "unnamed".data else text.map translitChar

/-- Decimal rendering of a natural number, as Python str produces; the
first argument is recursion fuel, always called with fuel above n. -/
def natToStrAux : Nat → Nat → Str
  | 0, _ => []
  | fuel + 1, n =>
    if n < 10 then [Nat.digitChar n]
    else natToStrAux fuel (n / 10) ++ [Nat.digitChar (n % 10)]

/-- Decimal rendering of a natural number. -/
def natToStr (n : Nat) : Str :=
  natToStrAux (n + 1) n

/-- Candidate filename number k for a base name: the base with a png
suffix for k equal to zero, and the base with an underscore, the decimal
counter and the png suffix for positive k (app.py lines 207 and 214). -/
def candidate (base : Str) (k : Nat) : Str :=
  if k = 0 then base ++ ".png".data
  else base ++ '_' :: (natToStr k ++ ".png".data)

/-- Collision-resolution loop of app.py (lines 211 to 216, 306 to 311,
349 to 353): starting at candidate k, return the first candidate not
present in the existing names; fuel bounds the number of iterations. -/
def resolveFrom (base : Str) (existing : List Str) : Nat → Nat → Str
  | 0, k => candidate base k
  | fuel + 1, k =>
    if candidate base k ∈ existing then resolveFrom base existing fuel (k + 1)
    else candidate base k

/-- Naming policy: safe name of the text, then collision resolution
against the existing names of the target namespace.  Fuel one above the
number of existing names always suffices (see resolveName_not_mem). -/
def resolveName (text : Str) (existing : List Str) : Str :=
  resolveFrom (safeName text) existing (existing.length + 1) 0

/-- Predicate for one character of the ASCII name class of the spec
regular expression: A to Z, a to z, 0 to 9, space, underscore, hyphen. -/
def asciiNameChar (c : Char) : Bool :=
  c.isAlphanum || decide (c = ' ') || decide (c = '_') || decide (c = '-')

/-- Recogniser for the tail of an ASCII png filename: either exactly the
png suffix, or one more ASCII name character followed by such a tail. -/
def asciiPngTail : Str → Bool
  | [] => false
  | c :: rest => decide (c :: rest = ".png".data) || (asciiNameChar c && asciiPngTail rest)

/-- Recogniser for the spec regular expression matching one or more ASCII
name characters followed by the png suffix. -/
def matchesAsciiPng : Str → Bool
  | [] => false
  | c :: rest => asciiNameChar c && asciiPngTail rest

/-- Corner point of an OCR bounding quadrilateral; coordinates are
modelled as integers. -/
structure Pt where
  x : Int
  y : Int
deriving DecidableEq

/-- One OCR detection as returned by the engine: the four corners of the
bounding box in the order top left, top right, bottom right, bottom left,
the recognised text, and the confidence (modelled as an integer; it is
never read by the code under verification). -/
structure Detection where
  tl : Pt
  tr : Pt
  br : Pt
  bl : Pt
  text : Str
  conf : Int
deriving DecidableEq

/-- Vertical span of a detection: absolute difference of the y
coordinates of the top-left and bottom-left corners (app.py line 48). -/
def vertSpan (d : Detection) : Nat :=
  (d.tl.y - d.bl.y).natAbs

/-- Model of Python max with a key function over a non-empty sequence:
the current best is replaced only when a later item has a strictly
greater key, so the first maximal item wins. -/
def pyMax (key : Detection → Nat) : Detection → List Detection → Detection
  | best, [] => best
  | best, d :: rest => if key best < key d then pyMax key d rest else pyMax key best rest

/-- Model of extract_main_text (app.py lines 41 to 53).  The argument is
the outcome of the OCR engine call: none when the engine raised an
exception, some of the detection list otherwise. -/
def extract_main_text : Option (List Detection) → Str
  | none => "OCR failed".data
  | some [] => "No text detected".data
  | some (d :: ds) => pyStrip (pyMax vertSpan d ds).text

/-- Preview descriptor returned per staged file by the upload routes
(app.py lines 96 to 101). -/
structure Preview where
  id : Str
  text : Str
  preview : Str
  ext : Str
deriving DecidableEq

/-- One item of a confirm or save request body: staged id, user-edited
text and file extension. -/
structure Slide where
  id : Str
  text : Str
  ext : Str
deriving DecidableEq

/-- Record stored for one saved slide of a brand visual (app.py lines 227
to 232). -/
structure SavedImage where
  filename : Str
  ocr_text : Str
  path : Str
  order : Nat
deriving DecidableEq

/-- One catalog entry of the flat-file database (app.py lines 243 to
249). -/
structure DbEntry where
  id : Str
  brand_name : Str
  sequence : Int
  images : List SavedImage
  created_at : Str
deriving DecidableEq

/-- Observable server state: the staged file names of the temp directory,
the file names of the permanent upload directory, and the catalog list
persisted in the flat-file database.  A directory is modelled by the list
of names it holds; paths are recovered by a fixed directory-dependent
name-to-path bijection, so membership of a path in a directory is
membership of its name in the list. -/
structure SysState where
  tempFiles : List Str
  uploadFiles : List Str
  db : List DbEntry
deriving DecidableEq

/-- Path of a file of the permanent upload directory (app.py lines 17 and
208). -/
def uploadPath (name : Str) : Str :=
  "static/uploads/".data ++ name

/-- Path of a file of the temp directory (app.py lines 19 and 89). -/
def tempPath (name : Str) : Str :=
  "static/temp/".data ++ name

/-- Outcomes of the external image codec and OCR engine, per staged file
name: whether cv2.imread decodes it, whether cv2.imwrite of the image at
its final name succeeds, whether cv2.imencode of the image succeeds, and
the OCR engine output for it (none when the engine raises). -/
structure Oracle where
  decodes : Str → Bool
  writeOk : Str → Bool
  encodeOk : Str → Bool
  ocr : Str → Option (List Detection)

/-- One file of an upload request after the framework layer: the
sanitised original filename produced by secure_filename, the fresh uuid
assigned at staging, and the extension recovered by splitext.  The uuid
source and splitext are treated as request-level inputs of the model. -/
structure InFile where
  name : Str
  id : Str
  ext : Str
deriving DecidableEq

/-- Responses of the route handlers, abstracting the HTTP layer: a
preview result list, a download link, a zip attachment given by its
download name and its member names in order, the catalog dump, a file
attachment, or an error status with message. -/
inductive Resp where
  | results (items : List Preview)
  | link (url : Str)
  | zipFile (downloadName : Str) (names : List Str)
  | catalog (entries : List DbEntry)
  | fileData (name : Str)
  | err (status : Nat) (msg : Str)
deriving DecidableEq

/-- Test for an error response. -/
def Resp.isErr : Resp → Bool
  | Resp.err _ _ => true
  | _ => false

/-- Staging loop shared by the upload routes (app.py lines 83 to 101 and
123 to 143): skip files with an empty sanitised name, write the raw bytes
under the uuid-based temp name, delete the temp file and skip when decode
fails, otherwise run OCR and record a preview descriptor.  The extra
filename field of the brand-slides variant is not modelled. -/
def stageFiles (o : Oracle) : SysState → List InFile → SysState × List Preview
  | st, [] => (st, [])
  | st, f :: rest =>
    if f.name = [] then stageFiles o st rest
    else
      let temp := f.id ++ f.ext
      let st1 : SysState := { st with tempFiles := st.tempFiles ++ [temp] }
      if o.decodes temp then
        let text := extract_main_text (o.ocr temp)
        let r := stageFiles o st1 rest
        (r.1, ⟨f.id, text, tempPath temp, f.ext⟩ :: r.2)
      else
        stageFiles o { st1 with tempFiles := st1.tempFiles.erase temp } rest

/-- Upload mode field of the upload route. -/
inductive UploadMode
  | single
  | bulk
deriving DecidableEq

/-- Model of the upload route (app.py lines 66 to 111). -/
def upload (o : Oracle) (st : SysState) (mode : UploadMode) (files : List InFile) :
    SysState × Resp :=
  if files = [] then (st, Resp.err 400 "No image uploaded".data)
  else if mode = UploadMode.single ∧ files.length ≠ 1 then
    (st, Resp.err 400 "Single mode requires exactly one image".data)
  else
    let r := stageFiles o st files
    if r.2 = [] then (r.1, Resp.err 400 "No valid images processed".data)
    else (r.1, Resp.results r.2)

/-- Model of the upload_brand_slides route (app.py lines 114 to 153). -/
def upload_brand_slides (o : Oracle) (st : SysState) (files : List InFile) :
    SysState × Resp :=
  if files = [] then (st, Resp.err 400 "No images uploaded".data)
  else
    let r := stageFiles o st files
    if r.2 = [] then (r.1, Resp.err 400 "No valid images processed".data)
    else (r.1, Resp.results r.2)

/-- Slide loop of save_brand_visual (app.py lines 188 to 240), carrying
the state, the zip member names, the saved-image records and the running
index: a slide whose temp file is absent is skipped; a temp file that
fails to decode is deleted and the slide skipped; otherwise the naming
policy is applied against the live upload directory, the image is written
there (on write failure the slide leaves no record but the temp file is
still deleted), re-encoded into the zip when encoding succeeds, recorded
with order one above the input index, and the temp file is deleted. -/
def processSlides (o : Oracle) :
    SysState → List Str → List SavedImage → Nat → List Slide →
    SysState × List Str × List SavedImage
  | st, zipNames, saved, _, [] => (st, zipNames, saved)
  | st, zipNames, saved, idx, s :: rest =>
    let temp := s.id ++ s.ext
    if temp ∈ st.tempFiles then
      if o.decodes temp then
        let text := pyStrip s.text
        let fname := resolveName text st.uploadFiles
        if o.writeOk fname then
          let st1 : SysState := { st with
            tempFiles := st.tempFiles.erase temp,
            uploadFiles := st.uploadFiles ++ [fname] }
          let zipNames1 := if o.encodeOk temp then zipNames ++ [fname] else zipNames
          processSlides o st1 zipNames1
            (saved ++ [⟨fname, text, uploadPath fname, idx + 1⟩]) (idx + 1) rest
        else
          processSlides o { st with tempFiles := st.tempFiles.erase temp }
            zipNames saved (idx + 1) rest
      else
        processSlides o { st with tempFiles := st.tempFiles.erase temp }
          zipNames saved (idx + 1) rest
    else
      processSlides o st zipNames saved (idx + 1) rest

/-- Model of the save_brand_visual route (app.py lines 156 to 274).  The
entry id produced by uuid4 and the timestamp are inputs of the model. -/
def save_brand_visual (o : Oracle) (st : SysState) (brandName : Str)
    (slides : List Slide) (sequence : Int) (entryId created : Str) :
    SysState × Resp :=
  let brand_name := pyStrip brandName
  if brand_name = [] ∨ slides = [] then
    (st, Resp.err 400 "Brand name and slides are required".data)
  else
    let r := processSlides o st [] [] 0 slides
    let entry : DbEntry := ⟨entryId, brand_name, sequence, r.2.2, created⟩
    ({ r.1 with db := r.1.db ++ [entry] },
     Resp.zipFile "brand_visual_slides.zip".data r.2.1)

/-- Model of the get_brand_visuals route (app.py lines 277 to 284). -/
def get_brand_visuals (st : SysState) : SysState × Resp :=
  (st, Resp.catalog st.db)

/-- Model of the confirm_single route (app.py lines 287 to 321). -/
def confirm_single (o : Oracle) (st : SysState) (id text ext : Str) :
    SysState × Resp :=
  let temp := id ++ ext
  if temp ∈ st.tempFiles then
    if o.decodes temp then
      let fname := resolveName (pyStrip text) st.uploadFiles
      if o.writeOk fname then
        ({ st with tempFiles := st.tempFiles.erase temp,
                   uploadFiles := st.uploadFiles ++ [fname] },
         Resp.link ("/download/".data ++ fname))
      else
        ({ st with tempFiles := st.tempFiles.erase temp },
         Resp.err 500 "Failed to save image".data)
    else
      ({ st with tempFiles := st.tempFiles.erase temp },
       Resp.err 500 "Failed to process image".data)
  else
    (st, Resp.err 404 "Temp file not found".data)

/-- Item loop of confirm_bulk (app.py lines 330 to 355), carrying the
state and the zip member names: an item whose temp file is absent is
skipped; decode or encode failure deletes the temp file and skips the
item; otherwise the naming policy is applied against the names already in
the zip, the encoded image is added to the zip and the temp file is
deleted. -/
def processBulk (o : Oracle) : SysState → List Str → List Slide → SysState × List Str
  | st, zipNames, [] => (st, zipNames)
  | st, zipNames, item :: rest =>
    let temp := item.id ++ item.ext
    if temp ∈ st.tempFiles then
      if o.decodes temp then
        if o.encodeOk temp then
          let fname := resolveName (pyStrip item.text) zipNames
          processBulk o { st with tempFiles := st.tempFiles.erase temp }
            (zipNames ++ [fname]) rest
        else
          processBulk o { st with tempFiles := st.tempFiles.erase temp } zipNames rest
      else
        processBulk o { st with tempFiles := st.tempFiles.erase temp } zipNames rest
    else
      processBulk o st zipNames rest

/-- Model of the confirm_bulk route (app.py lines 324 to 366). -/
def confirm_bulk (o : Oracle) (st : SysState) (items : List Slide) :
    SysState × Resp :=
  let r := processBulk o st [] items
  (r.1, Resp.zipFile "extracted_images.zip".data r.2)

/-- Model of the download route (app.py lines 369 to 374). -/
def download_file (st : SysState) (filename : Str) : SysState × Resp :=
  if filename ∈ st.uploadFiles then (st, Resp.fileData filename)
  else (st, Resp.err 404 "File not found".data)

/-- Modelled from the spec: the discard operation of the Staging Store
(spec section 4.2), which has no counterpart in app.py; it deletes the
staged file and is a no-op when the file is already absent. -/
def SysState.discard (st : SysState) (tempName : Str) : SysState :=
  { st with tempFiles := st.tempFiles.erase tempName }

/-- Oracle in which decoding, writing and encoding always succeed and the
OCR engine always raises; used for concrete evaluations. -/
def oracleTrue : Oracle :=
  ⟨fun _ => true, fun _ => true, fun _ => true, fun _ => none⟩

/-- Empty server state: no staged files, no stored files, empty
catalog. -/
def stEmpty : SysState :=
  ⟨[], [], []⟩

/-- Replacement of the text of a request item by its stripped form. -/
def stripSlide (s : Slide) : Slide :=
  ⟨s.id, pyStrip s.text, s.ext⟩

/-- Sample detection with a tall bounding box. -/
def detBig : Detection :=
  ⟨⟨0, 0⟩, ⟨10, 0⟩, ⟨10, 8⟩, ⟨0, 8⟩, " Big Title ".data, 9⟩

/-- Sample detection with a short bounding box. -/
def detSmall : Detection :=
  ⟨⟨0, 10⟩, ⟨4, 10⟩, ⟨4, 12⟩, ⟨0, 12⟩, "small".data, 9⟩

/-- Injectivity of the digit character map below ten. -/
theorem digitChar_inj : ∀ a, a < 10 → ∀ b, b < 10 →
    Nat.digitChar a = Nat.digitChar b → a = b := by
  decide

/-- Fuel irrelevance of the decimal rendering: any fuel above the number
gives the same digits. -/
theorem natToStrAux_fuel : ∀ f g n, n < f → n < g → natToStrAux f n = natToStrAux g n := by
  intro f
  induction f with
  | zero => intro g n h; omega
  | succ f ih =>
    intro g n hf hg
    cases g with
    | zero => omega
    | succ g =>
      simp only [natToStrAux]
      by_cases h10 : n < 10
      · simp [h10]
      · have hd : n / 10 < n := Nat.div_lt_self (by omega) (by omega)
        rw [if_neg h10, if_neg h10, ih g (n / 10) (by omega) (by omega)]

/-- Unfolding equation of the decimal rendering. -/
theorem natToStr_eq (n : Nat) :
    natToStr n = if n < 10 then [Nat.digitChar n]
      else natToStr (n / 10) ++ [Nat.digitChar (n % 10)] := by
  by_cases h10 : n < 10
  · rw [if_pos h10]
    unfold natToStr
    simp [natToStrAux, h10]
  · rw [if_neg h10]
    have hd : n / 10 < n := Nat.div_lt_self (by omega) (by omega)
    unfold natToStr
    conv_lhs => rw [natToStrAux]
    rw [if_neg h10]
    congr 1
    exact natToStrAux_fuel n (n / 10 + 1) (n / 10) (by omega) (by omega)

/-- Decimal renderings are never empty. -/
theorem natToStr_length_pos (n : Nat) : 0 < (natToStr n).length := by
  rw [natToStr_eq]
  by_cases h10 : n < 10
  · simp [h10]
  · simp [h10]

/-- Injectivity of the decimal rendering. -/
theorem natToStr_inj : ∀ a b : Nat, natToStr a = natToStr b → a = b := by
  intro a
  induction a using Nat.strong_induction_on with
  | _ a ih =>
    intro b h
    rw [natToStr_eq a, natToStr_eq b] at h
    by_cases ha : a < 10 <;> by_cases hb : b < 10
    · rw [if_pos ha, if_pos hb] at h
      exact digitChar_inj a ha b hb (List.cons.inj h).1
    · rw [if_pos ha, if_neg hb] at h
      have hlen := congrArg List.length h
      have hpos := natToStr_length_pos (b / 10)
      simp only [List.length_cons, List.length_nil, List.length_append] at hlen
      omega
    · rw [if_neg ha, if_pos hb] at h
      have hlen := congrArg List.length h
      have hpos := natToStr_length_pos (a / 10)
      simp only [List.length_cons, List.length_nil, List.length_append] at hlen
      omega
    · rw [if_neg ha, if_neg hb] at h
      have hlen : (natToStr (a / 10)).length = (natToStr (b / 10)).length := by
        have := congrArg List.length h
        simp only [List.length_append, List.length_cons, List.length_nil] at this
        omega
      obtain ⟨h1, h2⟩ := List.append_inj h hlen
      have e1 : a / 10 = b / 10 := ih (a / 10) (Nat.div_lt_self (by omega) (by omega)) _ h1
      have e2 : a % 10 = b % 10 :=
        digitChar_inj _ (Nat.mod_lt _ (by omega)) _ (Nat.mod_lt _ (by omega))
          (List.cons.inj h2).1
      omega

/-- Distinct counters give distinct candidate filenames for the same
base. -/
theorem candidate_inj (base : Str) : ∀ i j, candidate base i = candidate base j → i = j := by
  intro i j h
  unfold candidate at h
  by_cases hi : i = 0 <;> by_cases hj : j = 0
  · omega
  · rw [if_pos hi, if_neg hj] at h
    have h2 := List.append_cancel_left h
    have e : ".png".data = '.' :: "png".data := rfl
    rw [e] at h2
    exact absurd (List.cons.inj h2).1 (by decide)
  · rw [if_neg hi, if_pos hj] at h
    have h2 := List.append_cancel_left h
    have e : ".png".data = '.' :: "png".data := rfl
    rw [e] at h2
    exact absurd (List.cons.inj h2).1 (by decide)
  · rw [if_neg hi, if_neg hj] at h
    have h2 := (List.cons.inj (List.append_cancel_left h)).2
    exact natToStr_inj i j (List.append_cancel_right h2)

/-- The collision loop always returns some candidate of its base, with a
counter at least the starting one. -/
theorem resolveFrom_shape (base : Str) (ex : List Str) :
    ∀ fuel k, ∃ j, k ≤ j ∧ resolveFrom base ex fuel k = candidate base j := by
  intro fuel
  induction fuel with
  | zero => intro k; exact ⟨k, Nat.le_refl k, rfl⟩
  | succ fuel ih =>
    intro k
    simp only [resolveFrom]
    by_cases h : candidate base k ∈ ex
    · rw [if_pos h]
      obtain ⟨j, hj, he⟩ := ih (k + 1)
      exact ⟨j, by omega, he⟩
    · rw [if_neg h]
      exact ⟨k, Nat.le_refl k, rfl⟩

/-- When some candidate within the fuel window is free, the collision
loop returns a name not among the existing ones. -/
theorem resolveFrom_not_mem (base : Str) (ex : List Str) :
    ∀ fuel k, (∃ j, k ≤ j ∧ j < k + fuel ∧ candidate base j ∉ ex) →
      resolveFrom base ex fuel k ∉ ex := by
  intro fuel
  induction fuel with
  | zero =>
    intro k hj
    obtain ⟨j, h1, h2, _⟩ := hj
    omega
  | succ fuel ih =>
    intro k hj
    obtain ⟨j, h1, h2, h3⟩ := hj
    simp only [resolveFrom]
    by_cases h : candidate base k ∈ ex
    · rw [if_pos h]
      apply ih (k + 1)
      have hne : k ≠ j := by
        intro he
        exact h3 (he ▸ h)
      exact ⟨j, by omega, by omega, h3⟩
    · rw [if_neg h]
      exact h

/-- Pigeonhole argument: among any window of one more candidate than
there are existing names, some candidate is free. -/
theorem exists_free (base : Str) (ex : List Str) (k : Nat) :
    ∃ j, k ≤ j ∧ j < k + (ex.length + 1) ∧ candidate base j ∉ ex := by
  by_contra hc
  push_neg at hc
  have hinj : Function.Injective (fun i : Nat => candidate base (k + i)) := by
    intro i1 i2 h
    have := candidate_inj base (k + i1) (k + i2) h
    omega
  have hnd : ((List.range (ex.length + 1)).map (fun i => candidate base (k + i))).Nodup :=
    (List.nodup_range _).map hinj
  have hsub : ((List.range (ex.length + 1)).map (fun i => candidate base (k + i))) ⊆ ex := by
    intro x hx
    rw [List.mem_map] at hx
    obtain ⟨i, hi, rfl⟩ := hx
    rw [List.mem_range] at hi
    exact hc (k + i) (by omega) (by omega)
  have hle := (hnd.subperm hsub).length_le
  simp only [List.length_map, List.length_range] at hle
  omega

/-- The resolved name never collides with an existing name of its target
namespace. -/
theorem resolveName_not_mem (text : Str) (ex : List Str) : resolveName text ex ∉ ex := by
  apply resolveFrom_not_mem
  obtain ⟨j, h1, h2, h3⟩ := exists_free (safeName text) ex 0
  exact ⟨j, h1, h2, h3⟩

/-- The resolved name is some candidate of the safe name of the text. -/
theorem resolveName_shape (text : Str) (ex : List Str) :
    ∃ j, resolveName text ex = candidate (safeName text) j := by
  obtain ⟨j, _, he⟩ := resolveFrom_shape (safeName text) ex (ex.length + 1) 0
  exact ⟨j, he⟩

/-- The Python max model returns a member of the sequence. -/
theorem pyMax_mem (key : Detection → Nat) :
    ∀ (l : List Detection) (b : Detection), pyMax key b l ∈ b :: l := by
  intro l
  induction l with
  | nil => intro b; simp [pyMax]
  | cons d rest ih =>
    intro b
    simp only [pyMax]
    by_cases h : key b < key d
    · rw [if_pos h]
      have := ih d
      simp only [List.mem_cons] at this ⊢
      tauto
    · rw [if_neg h]
      have := ih b
      simp only [List.mem_cons] at this ⊢
      tauto

/-- The Python max model returns an item of maximal key. -/
theorem pyMax_is_max (key : Detection → Nat) :
    ∀ (l : List Detection) (b e : Detection),
      e ∈ b :: l → key e ≤ key (pyMax key b l) := by
  intro l
  induction l with
  | nil =>
    intro b e he
    simp only [List.mem_cons, List.not_mem_nil, or_false] at he
    subst he
    simp [pyMax]
  | cons d rest ih =>
    intro b e he
    simp only [pyMax]
    have hmem : e = b ∨ e = d ∨ e ∈ rest := by
      simp only [List.mem_cons] at he
      tauto
    by_cases h : key b < key d
    · rw [if_pos h]
      rcases hmem with hb | hd | hr
      · rw [hb]
        have := ih d d (by simp)
        omega
      · exact ih d e (by simp [hd])
      · exact ih d e (by simp [hr])
    · rw [if_neg h]
      rcases hmem with hb | hd | hr
      · exact ih b e (by simp [hb])
      · rw [hd]
        have := ih b b (by simp)
        omega
      · exact ih b e (by simp [hr])

/-- Safe names are never empty. -/
theorem safeName_ne_nil (text : Str) : safeName text ≠ [] := by
  unfold safeName
  by_cases h : text.map translitChar = []
  · rw [if_pos h]
    decide
  · rw [if_neg h]
    exact h

/-- Every character of a safe name is kept by the transliteration test:
alphanumeric in the Python sense, space, hyphen or underscore. -/
theorem safeName_chars (text : Str) : ∀ c ∈ safeName text, pyNameChar c = true := by
  unfold safeName
  by_cases h : text.map translitChar = []
  · rw [if_pos h]
    decide
  · rw [if_neg h]
    intro c hc
    rw [List.mem_map] at hc
    obtain ⟨a, _, rfl⟩ := hc
    unfold translitChar
    by_cases hp : pyNameChar a = true
    · rw [if_pos hp]
      exact hp
    · rw [if_neg hp]
      decide

/-- On ASCII characters the Python alphanumeric test agrees with the
ASCII one. -/
theorem pyIsAlnum_ascii (c : Char) (h : c.toNat < 128) : pyIsAlnum c = c.isAlphanum := by
  unfold pyIsAlnum
  cases hA : c.isAlphanum
  · simp only [Bool.false_or]
    simp only [Bool.or_eq_false_iff, decide_eq_false_iff_not]
    omega
  · simp

/-- Transliterating an ASCII character lands in the ASCII name class. -/
theorem translit_ascii (c : Char) (h : c.toNat < 128) :
    asciiNameChar (translitChar c) = true := by
  unfold translitChar
  by_cases hp : pyNameChar c = true
  · rw [if_pos hp]
    unfold pyNameChar at hp
    rw [pyIsAlnum_ascii c h] at hp
    unfold asciiNameChar
    simp only [Bool.or_eq_true, decide_eq_true_eq] at hp ⊢
    tauto
  · rw [if_neg hp]
    decide

/-- Tail recogniser accepts a non-empty ASCII base followed by the png
suffix. -/
theorem asciiPngTail_append (base : Str) (hne : base ≠ [])
    (hc : ∀ c ∈ base, asciiNameChar c = true) :
    asciiPngTail (base ++ ".png".data) = true := by
  induction base with
  | nil => exact absurd rfl hne
  | cons a t ih =>
    show (decide (a :: (t ++ ".png".data) = ".png".data) ||
      (asciiNameChar a && asciiPngTail (t ++ ".png".data))) = true
    rw [hc a (by simp)]
    cases t with
    | nil =>
      have hp : asciiPngTail ([] ++ ".png".data) = true := by decide
      rw [hp]
      simp
    | cons b u =>
      rw [ih (by simp) (fun c hcm => hc c (List.mem_cons_of_mem a hcm))]
      simp

/-- The regular-expression recogniser accepts a non-empty ASCII base
followed by the png suffix. -/
theorem matchesAsciiPng_append (base : Str) (hne : base ≠ [])
    (hc : ∀ c ∈ base, asciiNameChar c = true) :
    matchesAsciiPng (base ++ ".png".data) = true := by
  cases base with
  | nil => exact absurd rfl hne
  | cons a t =>
    show (asciiNameChar a && asciiPngTail (t ++ ".png".data)) = true
    rw [hc a (by simp)]
    cases t with
    | nil => decide
    | cons b u =>
      rw [asciiPngTail_append (b :: u) (by simp)
        (fun c hcm => hc c (List.mem_cons_of_mem a hcm))]
      simp

/-- Every character of a decimal rendering is a digit, hence in the
ASCII name class. -/
theorem natToStr_chars (n : Nat) : ∀ c ∈ natToStr n, asciiNameChar c = true := by
  induction n using Nat.strong_induction_on with
  | _ n ih =>
    rw [natToStr_eq]
    have hdig : ∀ d, d < 10 → asciiNameChar (Nat.digitChar d) = true := by decide
    by_cases h : n < 10
    · rw [if_pos h]
      intro c hc
      simp only [List.mem_cons, List.not_mem_nil, or_false] at hc
      subst hc
      exact hdig n h
    · rw [if_neg h]
      intro c hc
      rw [List.mem_append] at hc
      rcases hc with hc | hc
      · exact ih (n / 10) (Nat.div_lt_self (by omega) (by omega)) c hc
      · simp only [List.mem_cons, List.not_mem_nil, or_false] at hc
        subst hc
        exact hdig _ (Nat.mod_lt _ (by omega))

/-- Any candidate over a non-empty all-ASCII base matches the spec
regular expression. -/
theorem candidate_matches (base : Str) (j : Nat) (hne : base ≠ [])
    (hc : ∀ c ∈ base, asciiNameChar c = true) :
    matchesAsciiPng (candidate base j) = true := by
  unfold candidate
  by_cases hj : j = 0
  · rw [if_pos hj]
    exact matchesAsciiPng_append base hne hc
  · rw [if_neg hj]
    have hassoc : base ++ '_' :: (natToStr j ++ ".png".data) =
        (base ++ '_' :: natToStr j) ++ ".png".data := by
      simp
    rw [hassoc]
    apply matchesAsciiPng_append
    · simp
    · intro c hcm
      simp only [List.mem_append, List.mem_cons] at hcm
      rcases hcm with hcm | rfl | hcm
      · exact hc c hcm
      · decide
      · exact natToStr_chars j c hcm

/-- A head surviving dropWhile fails the dropped predicate. -/
theorem head_dropWhile_not (p : Char → Bool) :
    ∀ (l : Str) (c : Char), (l.dropWhile p).head? = some c → p c = false := by
  intro l
  induction l with
  | nil =>
    intro c h
    simp [List.dropWhile] at h
  | cons a t ih =>
    intro c h
    simp only [List.dropWhile_cons] at h
    by_cases ha : p a
    · rw [if_pos ha] at h
      exact ih c h
    · rw [if_neg ha] at h
      simp only [List.head?_cons, Option.some.injEq] at h
      rw [← h]
      simp only [Bool.not_eq_true] at ha
      exact ha

/-- dropWhile is the identity when the head already fails the
predicate. -/
theorem dropWhile_eq_self_of_head (p : Char → Bool) (l : Str)
    (h : ∀ c, l.head? = some c → p c = false) : l.dropWhile p = l := by
  cases l with
  | nil => rfl
  | cons a t =>
    have ha := h a (by simp)
    simp [List.dropWhile_cons, ha]

/-- dropWhile keeps the last element when its result is non-empty. -/
theorem getLast_dropWhile (p : Char → Bool) :
    ∀ l : Str, l.dropWhile p ≠ [] → (l.dropWhile p).getLast? = l.getLast? := by
  intro l
  induction l with
  | nil => intro h; rfl
  | cons a t ih =>
    intro h
    simp only [List.dropWhile_cons] at h ⊢
    by_cases ha : p a
    · rw [if_pos ha] at h ⊢
      rw [ih h]
      cases t with
      | nil => simp [List.dropWhile] at h
      | cons b u => rw [List.getLast?_cons_cons]
    · rw [if_neg ha]

/-- The first character of a stripped text is not whitespace. -/
theorem pyStrip_head (s : Str) (c : Char)
    (h : (pyStrip s).head? = some c) : pyIsWhitespace c = false := by
  unfold pyStrip dropTrail at h
  rw [List.head?_reverse] at h
  have hz : ((s.dropWhile pyIsWhitespace).reverse.dropWhile pyIsWhitespace) ≠ [] := by
    intro hz
    rw [hz] at h
    simp at h
  rw [getLast_dropWhile pyIsWhitespace _ hz, List.getLast?_reverse] at h
  exact head_dropWhile_not pyIsWhitespace _ c h

/-- The last character of a stripped text is not whitespace. -/
theorem pyStrip_getLast (s : Str) (c : Char)
    (h : (pyStrip s).getLast? = some c) : pyIsWhitespace c = false := by
  unfold pyStrip dropTrail at h
  rw [List.getLast?_reverse] at h
  exact head_dropWhile_not pyIsWhitespace _ c h

/-- Stripping is idempotent. -/
theorem pyStrip_idem (s : Str) : pyStrip (pyStrip s) = pyStrip s := by
  have h1 : (pyStrip s).dropWhile pyIsWhitespace = pyStrip s :=
    dropWhile_eq_self_of_head _ _ (fun c h => pyStrip_head s c h)
  show dropTrail pyIsWhitespace ((pyStrip s).dropWhile pyIsWhitespace) = pyStrip s
  rw [h1]
  unfold dropTrail
  have h2 : (pyStrip s).reverse.dropWhile pyIsWhitespace = (pyStrip s).reverse := by
    apply dropWhile_eq_self_of_head
    intro c h
    rw [List.head?_reverse] at h
    exact pyStrip_getLast s c h
  rw [h2, List.reverse_reverse]

/-- Transliteration sends a character to a space only if it was a
space. -/
theorem translit_space (c : Char) (h : translitChar c = ' ') : c = ' ' := by
  unfold translitChar at h
  by_cases hp : pyNameChar c = true
  · rw [if_pos hp] at h
    exact h
  · rw [if_neg hp] at h
    exact absurd h (by decide)

/-- The safe name of a stripped text never starts with a space. -/
theorem safeName_strip_head (t : Str) (c : Char)
    (h : (safeName (pyStrip t)).head? = some c) : c ≠ ' ' := by
  unfold safeName at h
  by_cases hm : (pyStrip t).map translitChar = []
  · rw [if_pos hm] at h
    have e : ("unnamed".data : Str).head? = some 'u' := by decide
    rw [e, Option.some.injEq] at h
    rw [← h]
    decide
  · rw [if_neg hm, List.head?_map] at h
    intro hspace
    rw [hspace] at h
    cases he : (pyStrip t).head? with
    | none =>
      rw [he] at h
      simp at h
    | some a =>
      rw [he] at h
      simp only [Option.map_some', Option.some.injEq] at h
      have ha := translit_space a h
      have hw := pyStrip_head t a he
      rw [ha] at hw
      exact absurd hw (by decide)

/-- The safe name of a stripped text never ends with a space. -/
theorem safeName_strip_last (t : Str) (c : Char)
    (h : (safeName (pyStrip t)).getLast? = some c) : c ≠ ' ' := by
  unfold safeName at h
  by_cases hm : (pyStrip t).map translitChar = []
  · rw [if_pos hm] at h
    have e : ("unnamed".data : Str).getLast? = some 'd' := by decide
    rw [e, Option.some.injEq] at h
    rw [← h]
    decide
  · rw [if_neg hm, List.getLast?_map] at h
    intro hspace
    rw [hspace] at h
    cases he : (pyStrip t).getLast? with
    | none =>
      rw [he] at h
      simp at h
    | some a =>
      rw [he] at h
      simp only [Option.map_some', Option.some.injEq] at h
      have ha := translit_space a h
      have hw := pyStrip_getLast t a he
      rw [ha] at hw
      exact absurd hw (by decide)

/-- Staging touches neither the catalog nor the permanent upload
directory. -/
theorem stageFiles_frame (o : Oracle) :
    ∀ (files : List InFile) (st : SysState),
      (stageFiles o st files).1.db = st.db ∧
      (stageFiles o st files).1.uploadFiles = st.uploadFiles := by
  intro files
  induction files with
  | nil => intro st; exact ⟨rfl, rfl⟩
  | cons f rest ih =>
    intro st
    simp only [stageFiles]
    by_cases hn : f.name = []
    · rw [if_pos hn]
      exact ih st
    · rw [if_neg hn]
      by_cases hd : o.decodes (f.id ++ f.ext) = true
      · rw [if_pos hd]
        exact ih _
      · rw [if_neg hd]
        exact ih _

/-- The confirm-bulk loop touches neither the catalog nor the permanent
upload directory, and only ever deletes temp files. -/
theorem processBulk_frame (o : Oracle) :
    ∀ (items : List Slide) (st : SysState) (zn : List Str),
      (processBulk o st zn items).1.db = st.db ∧
      (processBulk o st zn items).1.uploadFiles = st.uploadFiles ∧
      List.Sublist (processBulk o st zn items).1.tempFiles st.tempFiles := by
  intro items
  induction items with
  | nil => intro st zn; exact ⟨rfl, rfl, List.Sublist.refl _⟩
  | cons item rest ih =>
    intro st zn
    simp only [processBulk]
    by_cases h1 : (item.id ++ item.ext) ∈ st.tempFiles
    · rw [if_pos h1]
      have herase : List.Sublist (st.tempFiles.erase (item.id ++ item.ext)) st.tempFiles :=
        List.erase_sublist _ _
      by_cases hd : o.decodes (item.id ++ item.ext) = true
      · rw [if_pos hd]
        by_cases he : o.encodeOk (item.id ++ item.ext) = true
        · rw [if_pos he]
          obtain ⟨e1, e2, e3⟩ := ih { st with tempFiles := st.tempFiles.erase (item.id ++ item.ext) }
            (zn ++ [resolveName (pyStrip item.text) zn])
          exact ⟨e1, e2, e3.trans herase⟩
        · rw [if_neg he]
          obtain ⟨e1, e2, e3⟩ := ih { st with tempFiles := st.tempFiles.erase (item.id ++ item.ext) } zn
          exact ⟨e1, e2, e3.trans herase⟩
      · rw [if_neg hd]
        obtain ⟨e1, e2, e3⟩ := ih { st with tempFiles := st.tempFiles.erase (item.id ++ item.ext) } zn
        exact ⟨e1, e2, e3.trans herase⟩
    · rw [if_neg h1]
      exact ih st zn

/-- The save-brand-visual slide loop does not touch the catalog. -/
theorem processSlides_db (o : Oracle) :
    ∀ (slides : List Slide) (st : SysState) (zn : List Str)
      (saved : List SavedImage) (idx : Nat),
      (processSlides o st zn saved idx slides).1.db = st.db := by
  intro slides
  induction slides with
  | nil => intro st zn saved idx; rfl
  | cons s rest ih =>
    intro st zn saved idx
    simp only [processSlides]
    by_cases h1 : (s.id ++ s.ext) ∈ st.tempFiles
    · rw [if_pos h1]
      by_cases hd : o.decodes (s.id ++ s.ext) = true
      · rw [if_pos hd]
        by_cases hw : o.writeOk (resolveName (pyStrip s.text) st.uploadFiles) = true
        · rw [if_pos hw]
          exact ih _ _ _ _
        · rw [if_neg hw]
          exact ih _ _ _ _
      · rw [if_neg hd]
        exact ih _ _ _ _
    · rw [if_neg h1]
      exact ih _ _ _ _

/-- The catalog field is unchanged by confirm_single. -/
theorem confirm_single_db (o : Oracle) (st : SysState) (id text ext : Str) :
    (confirm_single o st id text ext).1.db = st.db := by
  simp only [confirm_single]
  split_ifs <;> rfl

/-- Records produced by the save-brand-visual slide loop: each new record
carries an order one above the input position of the slide it was made
from, bounded by the slide count, its text is the stripped slide text,
and the orders are strictly increasing. -/
theorem processSlides_saved (o : Oracle) :
    ∀ (slides : List Slide) (st : SysState) (zn : List Str)
      (saved : List SavedImage) (idx : Nat),
      ∃ news, (processSlides o st zn saved idx slides).2.2 = saved ++ news ∧
        (∀ img ∈ news, idx + 1 ≤ img.order ∧ img.order ≤ idx + slides.length ∧
          ∃ s, slides[img.order - 1 - idx]? = some s ∧
            img.ocr_text = pyStrip s.text) ∧
        List.Pairwise (fun a b => a.order < b.order) news := by
  intro slides
  induction slides with
  | nil =>
    intro st zn saved idx
    refine ⟨[], by simp [processSlides], by simp, by simp⟩
  | cons s rest ih =>
    intro st zn saved idx
    simp only [processSlides]
    by_cases h1 : (s.id ++ s.ext) ∈ st.tempFiles
    · rw [if_pos h1]
      by_cases hd : o.decodes (s.id ++ s.ext) = true
      · rw [if_pos hd]
        by_cases hw : o.writeOk (resolveName (pyStrip s.text) st.uploadFiles) = true
        · rw [if_pos hw]
          obtain ⟨news, he, hp, hpair⟩ := ih _ _ _ (idx + 1)
          refine ⟨⟨resolveName (pyStrip s.text) st.uploadFiles, pyStrip s.text,
            uploadPath (resolveName (pyStrip s.text) st.uploadFiles), idx + 1⟩ :: news,
            ?_, ?_, ?_⟩
          · rw [he, List.append_assoc]
            rfl
          · intro img himg
            rcases List.mem_cons.1 himg with rfl | hm
            · refine ⟨Nat.le_refl _, ?_, s, ?_, rfl⟩
              · show idx + 1 ≤ idx + (rest.length + 1)
                omega
              · show (s :: rest)[idx + 1 - 1 - idx]? = some s
                have h0 : idx + 1 - 1 - idx = 0 := by omega
                rw [h0, List.getElem?_cons_zero]
            · obtain ⟨b1, b2, s1, hs1, ht1⟩ := hp img hm
              refine ⟨by omega, by simp only [List.length_cons]; omega, s1, ?_, ht1⟩
              have hk : img.order - 1 - idx = (img.order - 1 - (idx + 1)) + 1 := by omega
              rw [hk, List.getElem?_cons_succ]
              exact hs1
          · refine List.Pairwise.cons ?_ hpair
            intro b hb
            have hb1 := (hp b hb).1
            show idx + 1 < b.order
            omega
        · rw [if_neg hw]
          obtain ⟨news, he, hp, hpair⟩ := ih _ _ _ (idx + 1)
          refine ⟨news, he, ?_, hpair⟩
          intro img hm
          obtain ⟨b1, b2, s1, hs1, ht1⟩ := hp img hm
          refine ⟨by omega, by simp only [List.length_cons]; omega, s1, ?_, ht1⟩
          have hk : img.order - 1 - idx = (img.order - 1 - (idx + 1)) + 1 := by omega
          rw [hk, List.getElem?_cons_succ]
          exact hs1
      · rw [if_neg hd]
        obtain ⟨news, he, hp, hpair⟩ := ih _ _ _ (idx + 1)
        refine ⟨news, he, ?_, hpair⟩
        intro img hm
        obtain ⟨b1, b2, s1, hs1, ht1⟩ := hp img hm
        refine ⟨by omega, by simp; omega, s1, ?_, ht1⟩
        have hk : img.order - 1 - idx = (img.order - 1 - (idx + 1)) + 1 := by omega
        rw [hk, List.getElem?_cons_succ]
        exact hs1
    · rw [if_neg h1]
      obtain ⟨news, he, hp, hpair⟩ := ih _ _ _ (idx + 1)
      refine ⟨news, he, ?_, hpair⟩
      intro img hm
      obtain ⟨b1, b2, s1, hs1, ht1⟩ := hp img hm
      refine ⟨by omega, by simp; omega, s1, ?_, ht1⟩
      have hk : img.order - 1 - idx = (img.order - 1 - (idx + 1)) + 1 := by omega
      rw [hk, List.getElem?_cons_succ]
      exact hs1

/-- A confirm_single call whose staged temp file is absent returns the
404 error and leaves the state unchanged. -/
theorem confirm_single_404 (o : Oracle) (st : SysState) (id text ext : Str)
    (h : (id ++ ext) ∉ st.tempFiles) :
    confirm_single o st id text ext = (st, Resp.err 404 "Temp file not found".data) := by
  simp only [confirm_single]
  rw [if_neg h]

/-- The confirm-bulk loop is invariant under stripping the item texts in
advance. -/
theorem processBulk_strip (o : Oracle) :
    ∀ (items : List Slide) (st : SysState) (zn : List Str),
      processBulk o st zn (items.map stripSlide) = processBulk o st zn items := by
  intro items
  induction items with
  | nil => intro st zn; rfl
  | cons item rest ih =>
    intro st zn
    simp only [List.map_cons, processBulk, stripSlide, pyStrip_idem]
    split_ifs <;> exact ih _ _

/-- The save-brand-visual slide loop is invariant under stripping the
slide texts in advance. -/
theorem processSlides_strip (o : Oracle) :
    ∀ (slides : List Slide) (st : SysState) (zn : List Str)
      (saved : List SavedImage) (idx : Nat),
      processSlides o st zn saved idx (slides.map stripSlide) =
        processSlides o st zn saved idx slides := by
  intro slides
  induction slides with
  | nil => intro st zn saved idx; rfl
  | cons s rest ih =>
    intro st zn saved idx
    simp only [List.map_cons, processSlides, stripSlide, pyStrip_idem]
    split_ifs <;> exact ih _ _ _ _

/-- Claim C1: for every OCR outcome, extract_main_text returns the
literal No text detected on an empty detection list, the literal OCR
failed when the engine raised, and otherwise the stripped text of a
detection of maximal absolute vertical span, the span being the absolute
difference between the y coordinates of the top-left and bottom-left
corners of the bounding box. -/
theorem claim_C1 (res : Option (List Detection)) :
    (res = some [] → extract_main_text res = "No text detected".data) ∧
    (res = none → extract_main_text res = "OCR failed".data) ∧
    (∀ d ds, res = some (d :: ds) →
      ∃ m ∈ d :: ds, extract_main_text res = pyStrip m.text ∧
        ∀ e ∈ d :: ds, vertSpan e ≤ vertSpan m) := by
  refine ⟨?_, ?_, ?_⟩
  · intro h
    rw [h]
    rfl
  · intro h
    rw [h]
    rfl
  · intro d ds h
    rw [h]
    exact ⟨pyMax vertSpan d ds, pyMax_mem vertSpan ds d, rfl,
      fun e he => pyMax_is_max vertSpan ds d e he⟩

/-- Witness for claim C1 at a concrete two-detection list. -/
theorem claim_C1_witness :
    ∃ m ∈ [detBig, detSmall],
      extract_main_text (some [detBig, detSmall]) = pyStrip m.text ∧
      ∀ e ∈ [detBig, detSmall], vertSpan e ≤ vertSpan m :=
  (claim_C1 (some [detBig, detSmall])).2.2 detBig [detSmall] rfl

/-- Counterexample to claim C2 as stated: the transliteration uses the
Unicode-aware Python alphanumeric test, so the non-ASCII letter at code
point 0xE9 is kept and the resolved filename does not match the ASCII
regular expression of the claim (nor is it of the unnamed fallback form,
which also lies inside that ASCII language). -/
theorem claim_C2_cex :
    resolveName "é".data [] = "é.png".data ∧
    matchesAsciiPng (resolveName "é".data []) = false := by
  constructor
  · decide
  · decide

/-- Claim C2 amended: the naming policy keeps characters that are
alphanumeric in the Unicode-aware Python sense or space, hyphen,
underscore, replaces the rest by underscores, substitutes unnamed for an
empty result, suffixes png and resolves collisions by an incrementing
decimal counter; the outcome never collides with the target namespace,
and it matches the ASCII regular expression of the spec whenever the
input text is ASCII. -/
theorem claim_C2 (text : Str) (ex : List Str) :
    resolveName text ex ∉ ex ∧
    (∃ j, resolveName text ex = candidate (safeName text) j) ∧
    safeName text ≠ [] ∧
    (∀ c ∈ safeName text, pyNameChar c = true) ∧
    ((∀ c ∈ text, c.toNat < 128) → matchesAsciiPng (resolveName text ex) = true) := by
  refine ⟨resolveName_not_mem text ex, resolveName_shape text ex,
    safeName_ne_nil text, safeName_chars text, ?_⟩
  intro hascii
  obtain ⟨j, hj⟩ := resolveName_shape text ex
  rw [hj]
  apply candidate_matches _ j (safeName_ne_nil text)
  intro c hc
  unfold safeName at hc
  by_cases hm : text.map translitChar = []
  · rw [if_pos hm] at hc
    have hu : ∀ c ∈ ("unnamed".data : Str), asciiNameChar c = true := by decide
    exact hu c hc
  · rw [if_neg hm] at hc
    rw [List.mem_map] at hc
    obtain ⟨a, ha, rfl⟩ := hc
    exact translit_ascii a (hascii a ha)

/-- Witness for claim C2: a colliding ASCII name is resolved to a fresh
name still matching the ASCII regular expression. -/
theorem claim_C2_witness :
    resolveName "A".data ["A.png".data] ∉ [("A.png".data : Str)] ∧
    matchesAsciiPng (resolveName "A".data ["A.png".data]) = true :=
  ⟨(claim_C2 "A".data ["A.png".data]).1,
   (claim_C2 "A".data ["A.png".data]).2.2.2.2 (by decide)⟩

/-- Counterexample to claim C3 as stated: a bulk confirm in which zero
items survive (the staged file is absent) returns the success archive
response with an empty member list, not a client-visible error; a brand
visual save whose only slide is absent likewise returns the success
archive response and still appends a catalog entry with an empty image
list. -/
theorem claim_C3_cex :
    (confirm_bulk oracleTrue stEmpty [⟨"x".data, "t".data, ".png".data⟩]).2 =
      Resp.zipFile "extracted_images.zip".data [] ∧
    Resp.isErr (confirm_bulk oracleTrue stEmpty [⟨"x".data, "t".data, ".png".data⟩]).2 =
      false ∧
    (save_brand_visual oracleTrue stEmpty "B".data [⟨"x".data, "t".data, ".png".data⟩]
        1 "e0".data "t0".data).2 =
      Resp.zipFile "brand_visual_slides.zip".data [] ∧
    (save_brand_visual oracleTrue stEmpty "B".data [⟨"x".data, "t".data, ".png".data⟩]
        1 "e0".data "t0".data).1.db =
      [⟨"e0".data, "B".data, 1, [], "t0".data⟩] := by
  refine ⟨by decide, by decide, by decide, by decide⟩

/-- Claim C3 amended: per-item failures during the batch operations are
swallowed and the item skipped, but only the upload routes escalate a
wholly empty result to a 400 error; confirm_bulk always answers with the
archive of the surviving items, and save_brand_visual, once its input
validation passes, always answers with the archive of the surviving
slides, even when that archive is empty. -/
theorem claim_C3 (o : Oracle) (st : SysState) :
    (∀ mode files, files ≠ [] → (stageFiles o st files).2 = [] →
      (upload o st mode files).2 = Resp.err 400 "No valid images processed".data ∨
      (upload o st mode files).2 =
        Resp.err 400 "Single mode requires exactly one image".data) ∧
    (∀ files, files ≠ [] → (stageFiles o st files).2 = [] →
      (upload_brand_slides o st files).2 =
        Resp.err 400 "No valid images processed".data) ∧
    (∀ items, (confirm_bulk o st items).2 =
      Resp.zipFile "extracted_images.zip".data (processBulk o st [] items).2) ∧
    (∀ brand slides seq eid ts, pyStrip brand ≠ [] → slides ≠ [] →
      (save_brand_visual o st brand slides seq eid ts).2 =
        Resp.zipFile "brand_visual_slides.zip".data
          (processSlides o st [] [] 0 slides).2.1) := by
  refine ⟨?_, ?_, ?_, ?_⟩
  · intro mode files hne hemp
    simp only [upload]
    rw [if_neg hne]
    by_cases hm : mode = UploadMode.single ∧ files.length ≠ 1
    · rw [if_pos hm]
      right
      rfl
    · rw [if_neg hm, if_pos hemp]
      left
      rfl
  · intro files hne hemp
    simp only [upload_brand_slides]
    rw [if_neg hne, if_pos hemp]
  · intro items
    rfl
  · intro brand slides seq eid ts hb hs
    simp only [save_brand_visual]
    rw [if_neg (fun h => h.elim hb hs)]

/-- Witness for claim C3: an upload whose only file has an empty
sanitised name escalates to a 400 error, while a save whose only slide is
missing from staging still answers with an archive response. -/
theorem claim_C3_witness :
    ((upload oracleTrue stEmpty UploadMode.bulk [⟨[], "u".data, ".png".data⟩]).2 =
        Resp.err 400 "No valid images processed".data ∨
      (upload oracleTrue stEmpty UploadMode.bulk [⟨[], "u".data, ".png".data⟩]).2 =
        Resp.err 400 "Single mode requires exactly one image".data) ∧
    (save_brand_visual oracleTrue stEmpty "B".data [⟨"x".data, "t".data, ".png".data⟩]
        1 "e2".data "t2".data).2 =
      Resp.zipFile "brand_visual_slides.zip".data
        (processSlides oracleTrue stEmpty [] [] 0
          [⟨"x".data, "t".data, ".png".data⟩]).2.1 :=
  ⟨(claim_C3 oracleTrue stEmpty).1 UploadMode.bulk [⟨[], "u".data, ".png".data⟩]
      (by decide) (by decide),
   (claim_C3 oracleTrue stEmpty).2.2.2 "B".data [⟨"x".data, "t".data, ".png".data⟩]
      1 "e2".data "t2".data (by decide) (by decide)⟩

/-- Claim C4: a save_brand_visual request whose brand name is empty after
trimming or whose slide list is empty fails with the 400 validation error
and leaves the state, hence the catalog and both directories, entirely
unchanged. -/
theorem claim_C4 (o : Oracle) (st : SysState) (brand : Str) (slides : List Slide)
    (seq : Int) (eid ts : Str) (h : pyStrip brand = [] ∨ slides = []) :
    save_brand_visual o st brand slides seq eid ts =
      (st, Resp.err 400 "Brand name and slides are required".data) := by
  simp only [save_brand_visual]
  rw [if_pos h]

/-- Witness for claim C4 at a blank brand name. -/
theorem claim_C4_witness :
    save_brand_visual oracleTrue stEmpty "   ".data
      [⟨"a".data, "T".data, ".png".data⟩] 1 "e1".data "t1".data =
      (stEmpty, Resp.err 400 "Brand name and slides are required".data) :=
  claim_C4 oracleTrue stEmpty "   ".data [⟨"a".data, "T".data, ".png".data⟩] 1
    "e1".data "t1".data (Or.inl (by decide))

/-- Claim C5: a successful save_brand_visual appends exactly one catalog
entry whose image records each carry the one-based input position of
their slide as order (the slide at index order minus one has the matching
stripped text) and whose orders are strictly increasing, so input slide
order is preserved regardless of which slides survive. -/
theorem claim_C5 (o : Oracle) (st : SysState) (brand : Str) (slides : List Slide)
    (seq : Int) (eid ts : Str) (hb : pyStrip brand ≠ []) (hs : slides ≠ []) :
    ∃ entry, (save_brand_visual o st brand slides seq eid ts).1.db = st.db ++ [entry] ∧
      entry.images = (processSlides o st [] [] 0 slides).2.2 ∧
      (∀ img ∈ entry.images, 1 ≤ img.order ∧ img.order ≤ slides.length ∧
        ∃ s, slides[img.order - 1]? = some s ∧ img.ocr_text = pyStrip s.text) ∧
      List.Pairwise (fun a b => a.order < b.order) entry.images := by
  obtain ⟨news, he, hp, hpair⟩ := processSlides_saved o slides st [] [] 0
  rw [List.nil_append] at he
  refine ⟨⟨eid, pyStrip brand, seq, (processSlides o st [] [] 0 slides).2.2, ts⟩,
    ?_, rfl, ?_, ?_⟩
  · have hdb := processSlides_db o slides st [] [] 0
    simp only [save_brand_visual]
    rw [if_neg (fun h => h.elim hb hs)]
    show (processSlides o st [] [] 0 slides).1.db ++
        [(⟨eid, pyStrip brand, seq, (processSlides o st [] [] 0 slides).2.2, ts⟩ :
          DbEntry)] =
      st.db ++ [⟨eid, pyStrip brand, seq, (processSlides o st [] [] 0 slides).2.2, ts⟩]
    rw [hdb]
  · intro img him
    have him2 : img ∈ news := by
      rw [← he]
      exact him
    obtain ⟨b1, b2, s1, hs1, ht1⟩ := hp img him2
    refine ⟨by omega, by omega, s1, ?_, ht1⟩
    have hz : img.order - 1 - 0 = img.order - 1 := by omega
    rw [hz] at hs1
    exact hs1
  · show List.Pairwise (fun a b => a.order < b.order) (processSlides o st [] [] 0 slides).2.2
    rw [he]
    exact hpair

/-- Witness for claim C5: two staged slides saved under brand Acme. -/
theorem claim_C5_witness :
    ∃ entry, (save_brand_visual oracleTrue ⟨["a.png".data, "b.png".data], [], []⟩
        "Acme".data
        [⟨"a".data, " B ".data, ".png".data⟩, ⟨"b".data, "A".data, ".png".data⟩]
        1 "e3".data "t3".data).1.db =
      (⟨["a.png".data, "b.png".data], [], []⟩ : SysState).db ++ [entry] ∧
      entry.images = (processSlides oracleTrue ⟨["a.png".data, "b.png".data], [], []⟩
        [] [] 0
        [⟨"a".data, " B ".data, ".png".data⟩, ⟨"b".data, "A".data, ".png".data⟩]).2.2 ∧
      (∀ img ∈ entry.images, 1 ≤ img.order ∧
        img.order ≤ ([⟨"a".data, " B ".data, ".png".data⟩,
          ⟨"b".data, "A".data, ".png".data⟩] : List Slide).length ∧
        ∃ s, ([⟨"a".data, " B ".data, ".png".data⟩,
            ⟨"b".data, "A".data, ".png".data⟩] : List Slide)[img.order - 1]? = some s ∧
          img.ocr_text = pyStrip s.text) ∧
      List.Pairwise (fun a b => a.order < b.order) entry.images :=
  claim_C5 oracleTrue ⟨["a.png".data, "b.png".data], [], []⟩ "Acme".data
    [⟨"a".data, " B ".data, ".png".data⟩, ⟨"b".data, "A".data, ".png".data⟩]
    1 "e3".data "t3".data (by decide) (by decide)

/-- Claim C6: confirm_single and confirm_bulk leave the catalog
untouched, and confirm_bulk moreover writes nothing to the permanent
upload directory and at most deletes staged temp files. -/
theorem claim_C6 (o : Oracle) (st : SysState) (id text ext : Str) (items : List Slide) :
    (confirm_single o st id text ext).1.db = st.db ∧
    (confirm_bulk o st items).1.db = st.db ∧
    (confirm_bulk o st items).1.uploadFiles = st.uploadFiles ∧
    List.Sublist (confirm_bulk o st items).1.tempFiles st.tempFiles := by
  obtain ⟨e1, e2, e3⟩ := processBulk_frame o items st []
  exact ⟨confirm_single_db o st id text ext, e1, e2, e3⟩

/-- Claim C7: the catalog is append-only across every exposed operation:
any operation leaves the stored entry list a prefix of the new one with
at most one appended entry, a validated save_brand_visual appends exactly
one, and every other route leaves the catalog unchanged. -/
theorem claim_C7 (o : Oracle) (st : SysState) (mode : UploadMode)
    (files : List InFile) (id text ext fname tname : Str) (items : List Slide)
    (brand : Str) (slides : List Slide) (seq : Int) (eid ts : Str) :
    (∃ tail, (save_brand_visual o st brand slides seq eid ts).1.db = st.db ++ tail ∧
      tail.length ≤ 1) ∧
    (pyStrip brand ≠ [] → slides ≠ [] →
      ∃ e, (save_brand_visual o st brand slides seq eid ts).1.db = st.db ++ [e]) ∧
    (upload o st mode files).1.db = st.db ∧
    (upload_brand_slides o st files).1.db = st.db ∧
    (confirm_single o st id text ext).1.db = st.db ∧
    (confirm_bulk o st items).1.db = st.db ∧
    (get_brand_visuals st).1.db = st.db ∧
    (download_file st fname).1.db = st.db ∧
    (SysState.discard st tname).db = st.db := by
  have hsave : ∀ hv : ¬(pyStrip brand = [] ∨ slides = []),
      (save_brand_visual o st brand slides seq eid ts).1.db =
        st.db ++ [(⟨eid, pyStrip brand, seq,
          (processSlides o st [] [] 0 slides).2.2, ts⟩ : DbEntry)] := by
    intro hv
    have hdb := processSlides_db o slides st [] [] 0
    simp only [save_brand_visual]
    rw [if_neg hv]
    show (processSlides o st [] [] 0 slides).1.db ++ _ = st.db ++ _
    rw [hdb]
  refine ⟨?_, ?_, ?_, ?_, confirm_single_db o st id text ext,
    (processBulk_frame o items st []).1, rfl, ?_, rfl⟩
  · by_cases hv : pyStrip brand = [] ∨ slides = []
    · refine ⟨[], ?_, by simp⟩
      simp only [save_brand_visual]
      rw [if_pos hv]
      simp
    · exact ⟨_, hsave hv, by simp⟩
  · intro hb hs
    exact ⟨_, hsave (fun h => h.elim hb hs)⟩
  · simp only [upload]
    split_ifs
    · rfl
    · rfl
    · exact (stageFiles_frame o files st).1
    · exact (stageFiles_frame o files st).1
  · simp only [upload_brand_slides]
    split_ifs
    · rfl
    · exact (stageFiles_frame o files st).1
    · exact (stageFiles_frame o files st).1
  · simp only [download_file]
    split_ifs
    · rfl
    · rfl

/-- Witness for claim C7: one validated save appends exactly one
entry. -/
theorem claim_C7_witness :
    ∃ e, (save_brand_visual oracleTrue stEmpty "B".data
        [⟨"x".data, "t".data, ".png".data⟩] 1 "e4".data "t4".data).1.db =
      stEmpty.db ++ [e] :=
  (claim_C7 oracleTrue stEmpty UploadMode.bulk [] "i".data "t".data ".png".data
      "f".data "n".data [] "B".data [⟨"x".data, "t".data, ".png".data⟩] 1
      "e4".data "t4".data).2.1 (by decide) (by decide)

/-- Claim C8 (spec-modelled, no discard operation exists in app.py): the
discard operation of the Staging Store deletes the staged file and is
idempotent: on an absent id it is a no-op and never errors, and repeating
it on a duplicate-free staging directory changes nothing further. -/
theorem claim_C8 (st : SysState) (n : Str) (hnd : st.tempFiles.Nodup) :
    (n ∉ st.tempFiles → SysState.discard st n = st) ∧
    SysState.discard (SysState.discard st n) n = SysState.discard st n ∧
    (SysState.discard st n).tempFiles = st.tempFiles.erase n := by
  refine ⟨?_, ?_, rfl⟩
  · intro h
    unfold SysState.discard
    rw [List.erase_of_not_mem h]
  · unfold SysState.discard
    congr 1
    apply List.erase_of_not_mem
    intro hm
    exact ((List.Nodup.mem_erase_iff hnd).1 hm).1 rfl

/-- Witness for claim C8 at an empty staging directory. -/
theorem claim_C8_witness :
    SysState.discard stEmpty "x.png".data = stEmpty ∧
    SysState.discard (SysState.discard stEmpty "x.png".data) "x.png".data =
      SysState.discard stEmpty "x.png".data :=
  ⟨(claim_C8 stEmpty "x.png".data (by decide)).1 (by decide),
   (claim_C8 stEmpty "x.png".data (by decide)).2.1⟩

/-- Claim C9: whenever the staged temp file of a confirm_single request
exists, it is deleted regardless of outcome: success yields the download
link, decode failure and write failure yield 500 errors, and in all three
cases the temp file is gone, so an immediate retry with the same id gets
the 404 error. -/
theorem claim_C9 (o : Oracle) (st : SysState) (id text ext : Str)
    (hnd : st.tempFiles.Nodup) (hmem : (id ++ ext) ∈ st.tempFiles) :
    (confirm_single o st id text ext).1.tempFiles = st.tempFiles.erase (id ++ ext) ∧
    (id ++ ext) ∉ (confirm_single o st id text ext).1.tempFiles ∧
    (confirm_single o (confirm_single o st id text ext).1 id text ext).2 =
      Resp.err 404 "Temp file not found".data ∧
    (o.decodes (id ++ ext) = false →
      (confirm_single o st id text ext).2 =
        Resp.err 500 "Failed to process image".data) ∧
    (o.decodes (id ++ ext) = true →
      o.writeOk (resolveName (pyStrip text) st.uploadFiles) = false →
      (confirm_single o st id text ext).2 =
        Resp.err 500 "Failed to save image".data) ∧
    (o.decodes (id ++ ext) = true →
      o.writeOk (resolveName (pyStrip text) st.uploadFiles) = true →
      (confirm_single o st id text ext).2 =
        Resp.link ("/download/".data ++ resolveName (pyStrip text) st.uploadFiles)) := by
  have htemp : (confirm_single o st id text ext).1.tempFiles =
      st.tempFiles.erase (id ++ ext) := by
    simp only [confirm_single]
    rw [if_pos hmem]
    by_cases hd : o.decodes (id ++ ext) = true
    · rw [if_pos hd]
      by_cases hw : o.writeOk (resolveName (pyStrip text) st.uploadFiles) = true
      · rw [if_pos hw]
      · rw [if_neg hw]
    · rw [if_neg hd]
  have hnot : (id ++ ext) ∉ (confirm_single o st id text ext).1.tempFiles := by
    rw [htemp]
    intro hm
    exact ((List.Nodup.mem_erase_iff hnd).1 hm).1 rfl
  refine ⟨htemp, hnot, ?_, ?_, ?_, ?_⟩
  · rw [confirm_single_404 o _ id text ext hnot]
  · intro hd0
    simp only [confirm_single]
    rw [if_pos hmem, if_neg (by rw [hd0]; exact Bool.false_ne_true)]
  · intro hd1 hw0
    simp only [confirm_single]
    rw [if_pos hmem, if_pos hd1, if_neg (by rw [hw0]; exact Bool.false_ne_true)]
  · intro hd1 hw1
    simp only [confirm_single]
    rw [if_pos hmem, if_pos hd1, if_pos hw1]

/-- Witness for claim C9 at one staged file with an always-succeeding
codec. -/
theorem claim_C9_witness :
    ("a".data ++ ".png".data) ∉
      (confirm_single oracleTrue ⟨["a.png".data], [], []⟩ "a".data "T".data
        ".png".data).1.tempFiles ∧
    (confirm_single oracleTrue
      (confirm_single oracleTrue ⟨["a.png".data], [], []⟩ "a".data "T".data
        ".png".data).1 "a".data "T".data ".png".data).2 =
      Resp.err 404 "Temp file not found".data :=
  ⟨(claim_C9 oracleTrue ⟨["a.png".data], [], []⟩ "a".data "T".data ".png".data
      (by decide) (by decide)).2.1,
   (claim_C9 oracleTrue ⟨["a.png".data], [], []⟩ "a".data "T".data ".png".data
      (by decide) (by decide)).2.2.1⟩

/-- Claim C10: every confirm and save operation strips the user text
before transliteration: calling any of them with pre-stripped texts gives
the identical outcome, the safe name of a stripped text never starts or
ends with a space, and the sample text of one letter surrounded by spaces
resolves to exactly that letter with the png suffix. -/
theorem claim_C10 (o : Oracle) (st : SysState) (id text ext : Str)
    (items slides : List Slide) (brand : Str) (seq : Int) (eid ts : Str) :
    confirm_single o st id (pyStrip text) ext = confirm_single o st id text ext ∧
    confirm_bulk o st (items.map stripSlide) = confirm_bulk o st items ∧
    save_brand_visual o st brand (slides.map stripSlide) seq eid ts =
      save_brand_visual o st brand slides seq eid ts ∧
    (∀ c, (safeName (pyStrip text)).head? = some c → c ≠ ' ') ∧
    (∀ c, (safeName (pyStrip text)).getLast? = some c → c ≠ ' ') ∧
    resolveName (pyStrip " A ".data) [] = "A.png".data := by
  refine ⟨?_, ?_, ?_, fun c h => safeName_strip_head text c h,
    fun c h => safeName_strip_last text c h, by decide⟩
  · simp only [confirm_single, pyStrip_idem]
  · simp only [confirm_bulk, processBulk_strip]
  · simp only [save_brand_visual, List.map_eq_nil_iff, processSlides_strip]

/-- Witness for claim C10: confirming with the raw and with the
pre-stripped text coincide on a concrete request. -/
theorem claim_C10_witness :
    confirm_single oracleTrue stEmpty "a".data (pyStrip " A ".data) ".png".data =
      confirm_single oracleTrue stEmpty "a".data " A ".data ".png".data :=
  (claim_C10 oracleTrue stEmpty "a".data " A ".data ".png".data [] [] "B".data
    1 "e5".data "t5".data).1
